import Mathlib

/-!
Verification of the TOON converter (`src/lib/toon-converter.js`, with the
rich-text and property extractors from `src/lib/notion-api.js`).

The JavaScript source is shallowly embedded: JS objects become Lean
structures whose possibly-absent fields are `Option`s, JS strings become
Lean `String`s, and the JS truthiness idioms (`x || d`, `if (x)`) are
embedded by explicit helpers.  `null` and `undefined` are conflated into a
single `JsValue.vNull`, which is harmless here because every place the
converter inspects them (`value === null || value === undefined`) treats
them identically.
-/

namespace Toon

/-- JS `a || d` on a possibly-absent string: the empty string and an absent
value are falsy, everything else passes through. -/
def jsOrStr (a : Option String) (d : String) : String :=
  match a with
  | some s => if s = "" then d else s
  | none => d

/-- JS `String.prototype.split` on a single separator character, on the
character-list representation.  `split` always returns a nonempty list and
`"".split(c) = [""]`. -/
def jsSplitList (c : Char) : List Char → List (List Char)
  | [] => [[]]
  | a :: rest =>
    let r := jsSplitList c rest
    if a = c then [] :: r
    else (a :: r.headD []) :: r.tail

/-- JS `s.split(c)` for strings. -/
def jsSplit (s : String) (c : Char) : List String :=
  (jsSplitList c s.data).map (fun l => String.mk l)

/-- JS `s.includes(c)` for a single character. -/
def jsIncludes (s : String) (c : Char) : Bool :=
  s.data.contains c

/-- One fragment of a Notion rich-text array: only its `plain_text` field is
ever read. -/
structure RichText where
  plain_text : Option String := none
  deriving Repr, DecidableEq

/-- `richTextToPlain` (notion-api.js): absent array renders as `""`; else the
fragments' `plain_text || ''` values are concatenated. -/
def richTextToPlain (richTextArray : Option (List RichText)) : String :=
  match richTextArray with
  | none => ""
  | some l => String.join (l.map (fun rt => jsOrStr rt.plain_text ""))

/-- `escapeValue` (toon-converter.js): falsy (empty) input renders as `""`;
input containing a newline is truncated to its first line plus `"..."`;
anything else is returned unchanged. -/
def escapeValue (value : String) : String :=
  if value = "" then ""
  else if jsIncludes value '\n' then
    ((jsSplit value '\n').headD "") ++ "..."
  else value

/-- The kind-specific payload of a block (the object stored under the key
named by the block's `type`), flattened: the JS code only ever reads the
payload named by the block's own type tag, so one record of optional fields
per block is a faithful model of the data model. -/
structure BlockData where
  type : String
  rich_text : Option (List RichText) := none
  checked : Option Bool := none
  language : Option String := none
  icon_emoji : Option String := none
  file_url : Option String := none
  external_url : Option String := none
  caption : Option (List RichText) := none
  url : Option String := none
  expression : Option String := none
  name : Option String := none
  title : Option String := none
  page_id : Option String := none
  database_id : Option String := none
  has_column_header : Option Bool := none
  cells : Option (List (List RichText)) := none
  deriving Repr, DecidableEq

/-- A Notion block: its kind-specific data plus the (pre-fetched) children
array, absent when the fetch layer attached none. -/
inductive Block where
  | mk (data : BlockData) (children : Option (List Block))

def Block.data : Block → BlockData
  | .mk d _ => d

def Block.children : Block → Option (List Block)
  | .mk _ c => c

def Block.type (b : Block) : String := b.data.type
def Block.rich_text (b : Block) : Option (List RichText) := b.data.rich_text
def Block.checked (b : Block) : Option Bool := b.data.checked
def Block.language (b : Block) : Option String := b.data.language
def Block.icon_emoji (b : Block) : Option String := b.data.icon_emoji
def Block.file_url (b : Block) : Option String := b.data.file_url
def Block.external_url (b : Block) : Option String := b.data.external_url
def Block.caption (b : Block) : Option (List RichText) := b.data.caption
def Block.url (b : Block) : Option String := b.data.url
def Block.expression (b : Block) : Option String := b.data.expression
def Block.name (b : Block) : Option String := b.data.name
def Block.title (b : Block) : Option String := b.data.title
def Block.page_id (b : Block) : Option String := b.data.page_id
def Block.database_id (b : Block) : Option String := b.data.database_id
def Block.has_column_header (b : Block) : Option Bool := b.data.has_column_header
def Block.cells (b : Block) : Option (List (List RichText)) := b.data.cells

/-- `'  '.repeat(indent)`. -/
def indentOf (indent : Nat) : String :=
  String.join (List.replicate indent "  ")

/-- `isListItem` (toon-converter.js). -/
def isListItem (block : Block) : Bool :=
  ["bulleted_list_item", "numbered_list_item", "to_do"].contains block.type

/-- JS truthiness of `item.children && item.children.length > 0`. -/
def jsHasChildren (b : Block) : Bool :=
  match b.children with
  | some cs => decide (0 < cs.length)
  | none => false

/-- The tabular-form label chosen in `formatListItems`. -/
def listLabel (t : String) : String :=
  if t = "bulleted_list_item" then "items"
  else if t = "numbered_list_item" then "list"
  else "todos"

/-- Rendering of one table cell list: `richTextToPlain(cell)`. -/
def cellTexts (r : Block) : List String :=
  (r.cells.getD []).map (fun c => richTextToPlain (some c))

/-- `formatTable` (toon-converter.js). -/
def formatTable (block : Block) (indentStr : String) : List String :=
  match block.children with
  | none => [indentStr ++ "table[0]:"]
  | some [] => [indentStr ++ "table[0]:"]
  | some (r :: rest) =>
    let hasHeader := block.has_column_header.getD false
    let headers := if hasHeader then cellTexts r else []
    let dataRows := if hasHeader then rest else r :: rest
    let headerLine :=
      if headers ≠ [] then
        indentStr ++ "table[" ++ toString dataRows.length ++ "]\x7b" ++
          String.intercalate "," (headers.map escapeValue) ++ "\x7d:"
      else
        indentStr ++ "table[" ++ toString dataRows.length ++ "]:"
    headerLine :: dataRows.map (fun row =>
      indentStr ++ "  " ++ String.intercalate "," ((cellTexts row).map escapeValue))

theorem sizeOf_takeWhile_le {α : Type} [SizeOf α] (p : α → Bool) (l : List α) :
    sizeOf (l.takeWhile p) ≤ sizeOf l := by
  induction l with
  | nil => simp
  | cons a l ih =>
    rw [List.takeWhile_cons]
    cases hpa : p a with
    | true =>
      simp only [hpa, if_true]
      simp only [List.cons.sizeOf_spec]
      omega
    | false =>
      simp only [hpa, Bool.false_eq_true, if_false]
      simp only [List.cons.sizeOf_spec, List.nil.sizeOf_spec]
      omega

theorem sizeOf_drop_le {α : Type} [SizeOf α] (n : Nat) (l : List α) :
    sizeOf (l.drop n) ≤ sizeOf l := by
  induction l generalizing n with
  | nil => simp [List.drop]
  | cons a l ih =>
    cases n with
    | zero => simp
    | succ n =>
      rw [List.drop_succ_cons]
      calc sizeOf (l.drop n) ≤ sizeOf l := ih n
        _ ≤ sizeOf (a :: l) := by simp only [List.cons.sizeOf_spec]; omega

theorem sizeOf_children_lt (b : Block) (cs : List Block)
    (h : b.children = some cs) : sizeOf cs < sizeOf b := by
  cases b with
  | mk d c =>
    simp only [Block.children] at h
    subst h
    simp only [Block.mk.sizeOf_spec, Option.some.sizeOf_spec]
    omega

mutual

/-- `convertBlocks` (toon-converter.js): the sibling walk with, at each list
item, lookahead collection of the maximal same-type run
(`collectListItems`), and special-casing of `table` blocks. -/
def convertBlocks (blocks : List Block) (indent : Nat) : List String :=
  match blocks with
  | [] => []
  | b :: bs =>
    let indentStr := indentOf indent
    if isListItem b then
      let rest := bs.takeWhile (fun x => x.type == b.type)
      formatListItems (b :: rest) indentStr ++
        convertBlocks (bs.drop rest.length) indent
    else if b.type = "table" then
      formatTable b indentStr ++ convertBlocks bs indent
    else
      convertBlock b indent ++ convertBlocks bs indent
termination_by 2 * sizeOf blocks + 1
decreasing_by
  all_goals
    (have h1 := sizeOf_takeWhile_le (fun x => x.type == b.type) bs
     have h2 := sizeOf_drop_le (List.takeWhile (fun x => x.type == b.type) bs).length bs
     simp only [List.cons.sizeOf_spec]
     omega)

/-- `formatListItems` (toon-converter.js).  Inside a same-type run the JS
`item[type]` payload lookup is the item's own payload, which the flattened
`Block` model reads directly. -/
def formatListItems (items : List Block) (indentStr : String) : List String :=
  match items with
  | [] => []
  | first :: restItems =>
    let t := first.type
    let hasChildren := (first :: restItems).any jsHasChildren
    if hasChildren = false ∧ 2 ≤ (first :: restItems).length then
      (indentStr ++ listLabel t ++ "[" ++ toString (first :: restItems).length ++ "]:") ::
        (first :: restItems).map (fun item =>
          let text := richTextToPlain item.rich_text
          if t = "to_do" then
            let checked := if item.checked.getD false then "[x]" else "[ ]"
            indentStr ++ "  " ++ checked ++ " " ++ escapeValue text
          else
            indentStr ++ "  " ++ escapeValue text)
    else
      ((first :: restItems).attach.map (fun x =>
        (convertBlock x.1 0).map (fun l => indentStr ++ l))).flatten
termination_by 2 * sizeOf items
decreasing_by
  all_goals
    (have h1 := List.sizeOf_lt_of_mem x.2
     omega)

/-- `convertBlock` (toon-converter.js): the per-kind dispatch.  Note that the
`paragraph` case emits its own line only and, unlike the other text-bearing
kinds, contains no recursion into children (exactly as in the source). -/
def convertBlock (block : Block) (indent : Nat) : List String :=
  let indentStr := indentOf indent
  if block.type = "paragraph" then
    let text := richTextToPlain block.rich_text
    if text = "" then [] else [indentStr ++ "p: " ++ escapeValue text]
  else if block.type = "heading_1" then
    let text := richTextToPlain block.rich_text
    (if text = "" then [] else [indentStr ++ "h1: " ++ escapeValue text]) ++
      (match h : block.children with
       | some cs => convertBlocks cs (indent + 1)
       | none => [])
  else if block.type = "heading_2" then
    let text := richTextToPlain block.rich_text
    (if text = "" then [] else [indentStr ++ "h2: " ++ escapeValue text]) ++
      (match h : block.children with
       | some cs => convertBlocks cs (indent + 1)
       | none => [])
  else if block.type = "heading_3" then
    let text := richTextToPlain block.rich_text
    (if text = "" then [] else [indentStr ++ "h3: " ++ escapeValue text]) ++
      (match h : block.children with
       | some cs => convertBlocks cs (indent + 1)
       | none => [])
  else if block.type = "bulleted_list_item" then
    let text := richTextToPlain block.rich_text
    (if text = "" then [] else [indentStr ++ "- " ++ escapeValue text]) ++
      (match h : block.children with
       | some cs => convertBlocks cs (indent + 1)
       | none => [])
  else if block.type = "numbered_list_item" then
    let text := richTextToPlain block.rich_text
    (if text = "" then [] else [indentStr ++ "# " ++ escapeValue text]) ++
      (match h : block.children with
       | some cs => convertBlocks cs (indent + 1)
       | none => [])
  else if block.type = "to_do" then
    let text := richTextToPlain block.rich_text
    let checked := if block.checked.getD false then "[x]" else "[ ]"
    (if text = "" then []
     else [indentStr ++ checked ++ " " ++ escapeValue text]) ++
      (match h : block.children with
       | some cs => convertBlocks cs (indent + 1)
       | none => [])
  else if block.type = "toggle" then
    let text := richTextToPlain block.rich_text
    (if text = "" then [] else [indentStr ++ "toggle: " ++ escapeValue text]) ++
      (match h : block.children with
       | some cs => convertBlocks cs (indent + 1)
       | none => [])
  else if block.type = "code" then
    let text := richTextToPlain block.rich_text
    let lang := jsOrStr block.language "plain"
    if text = "" then []
    else (indentStr ++ "code[" ++ lang ++ "]:") ::
      (jsSplit text '\n').map (fun codeLine => indentStr ++ "  " ++ codeLine)
  else if block.type = "quote" then
    let text := richTextToPlain block.rich_text
    (if text = "" then [] else [indentStr ++ "quote: " ++ escapeValue text]) ++
      (match h : block.children with
       | some cs => convertBlocks cs (indent + 1)
       | none => [])
  else if block.type = "callout" then
    let text := richTextToPlain block.rich_text
    let icon := jsOrStr block.icon_emoji "💡"
    (if text = "" then []
     else [indentStr ++ "callout[" ++ icon ++ "]: " ++ escapeValue text]) ++
      (match h : block.children with
       | some cs => convertBlocks cs (indent + 1)
       | none => [])
  else if block.type = "divider" then
    [indentStr ++ "---"]
  else if block.type = "image" then
    let url := jsOrStr block.file_url (jsOrStr block.external_url "")
    let caption := richTextToPlain block.caption
    if caption = "" then [indentStr ++ "image: " ++ url]
    else [indentStr ++ "image: " ++ escapeValue caption]
  else if block.type = "video" then
    let url := jsOrStr block.file_url (jsOrStr block.external_url "")
    [indentStr ++ "video: " ++ url]
  else if block.type = "file" then
    let url := jsOrStr block.file_url (jsOrStr block.external_url "")
    let name := jsOrStr block.name "file"
    [indentStr ++ "file[" ++ name ++ "]: " ++ url]
  else if block.type = "pdf" then
    let url := jsOrStr block.file_url (jsOrStr block.external_url "")
    [indentStr ++ "pdf: " ++ url]
  else if block.type = "bookmark" then
    let url := jsOrStr block.url ""
    let caption := richTextToPlain block.caption
    if caption = "" then [indentStr ++ "bookmark: " ++ url]
    else [indentStr ++ "bookmark: " ++ escapeValue caption ++ " (" ++ url ++ ")"]
  else if block.type = "link_preview" then
    [indentStr ++ "link: " ++ jsOrStr block.url ""]
  else if block.type = "embed" then
    [indentStr ++ "embed: " ++ jsOrStr block.url ""]
  else if block.type = "equation" then
    [indentStr ++ "math: " ++ escapeValue (jsOrStr block.expression "")]
  else if block.type = "table_of_contents" then
    [indentStr ++ "toc:"]
  else if block.type = "breadcrumb" then
    [indentStr ++ "breadcrumb:"]
  else if block.type = "column_list" then
    match h : block.children with
    | some cols =>
      (indentStr ++ "columns:") ::
        (cols.attach.map (fun c =>
          match hc : c.1.children with
          | some colChildren => convertBlocks colChildren (indent + 1)
          | none => [])).flatten
    | none => []
  else if block.type = "synced_block" then
    match h : block.children with
    | some cs => convertBlocks cs indent
    | none => []
  else if block.type = "child_page" then
    [indentStr ++ "page: " ++ escapeValue (jsOrStr block.title "Untitled")]
  else if block.type = "child_database" then
    [indentStr ++ "database: " ++ escapeValue (jsOrStr block.title "Untitled")]
  else if block.type = "link_to_page" then
    [indentStr ++ "link_to_page: " ++ jsOrStr block.page_id (jsOrStr block.database_id "")]
  else
    [indentStr ++ "[" ++ block.type ++ "]"]
termination_by 2 * sizeOf block
decreasing_by
  all_goals
    (first
      | (have h1 := sizeOf_children_lt block _ h
         omega)
      | (have h1 := sizeOf_children_lt block _ h
         have h2 := List.sizeOf_lt_of_mem c.2
         have h3 := sizeOf_children_lt c.1 _ hc
         omega))

end

/-- A simplified JS value as produced by `extractPropertyValue`
(notion-api.js).  `vNull` stands for both JS `null` and `undefined`: the
converter only ever tests them with `=== null || === undefined`, treating
the two identically. -/
inductive JsValue where
  | vNull
  | vStr (s : String)
  | vNum (n : Int)
  | vBool (b : Bool)
  | vArr (elems : List JsValue)
  deriving Repr

/-- A date payload (`{ start, end? }`).  `end` is a Lean keyword, hence the
field name `end_`. -/
structure DateValue where
  start : String
  end_ : Option String := none
  deriving Repr, DecidableEq

/-- One select/status/multi-select option (`{ name }`). -/
structure SelectOption where
  name : String
  deriving Repr, DecidableEq

/-- One entry of a `people` property (`p.name || p.id`). -/
structure PersonRef where
  name : Option String := none
  id : String
  deriving Repr, DecidableEq

/-- One entry of a `files` property (`f.name || f.external?.url || f.file?.url`). -/
structure FileRef where
  name : Option String := none
  external_url : Option String := none
  file_url : Option String := none
  deriving Repr, DecidableEq

/-- A user reference (`u?.name || u?.id`). -/
structure UserRef where
  name : Option String := none
  id : Option String := none
  deriving Repr, DecidableEq

/-- A `unique_id` payload; `pfx` models the JS field `prefix`. -/
structure UniqueIdValue where
  pfx : Option String := none
  number : Int
  deriving Repr, DecidableEq

/-- A formula result, tagged by `formula.type`. -/
inductive FormulaValue where
  | fString (s : Option String)
  | fNumber (n : Option Int)
  | fBoolean (b : Option Bool)
  | fDate (d : Option DateValue)
  | fOther
  deriving Repr, DecidableEq

mutual

/-- A page property, tagged by `type` exactly as in extractPropertyValue
(notion-api.js); `other` covers every unrecognized tag. -/
inductive Property where
  | title (rt : Option (List RichText))
  | rich_text (rt : Option (List RichText))
  | number (n : Option Int)
  | select (s : Option SelectOption)
  | multi_select (opts : Option (List SelectOption))
  | status (s : Option SelectOption)
  | date (d : Option DateValue)
  | people (ps : Option (List PersonRef))
  | files (fs : Option (List FileRef))
  | checkbox (b : Bool)
  | url (u : Option String)
  | email (e : Option String)
  | phone_number (p : Option String)
  | formula (f : Option FormulaValue)
  | relation (ids : Option (List String))
  | rollup (r : Option RollupValue)
  | created_time (t : String)
  | created_by (u : Option UserRef)
  | last_edited_time (t : String)
  | last_edited_by (u : Option UserRef)
  | unique_id (u : Option UniqueIdValue)
  | other (typeName : String)

/-- A rollup result, tagged by `rollup.type`; its `array` case recursively
holds property values. -/
inductive RollupValue where
  | rNumber (n : Option Int)
  | rDate (d : Option DateValue)
  | rArray (items : Option (List Property))
  | rOther

end

/-- JS `||` chain over two possibly-absent strings, keeping absence. -/
def jsOrOpt (a b : Option String) : Option String :=
  match a with
  | some s => if s = "" then b else some s
  | none => b

/-- An optional number as a JS value (`null`/`undefined` when absent). -/
def optNum : Option Int → JsValue
  | some n => .vNum n
  | none => .vNull

/-- An optional string as a JS value. -/
def optStr : Option String → JsValue
  | some s => .vStr s
  | none => .vNull

/-- `extractFormulaValue` (notion-api.js). -/
def extractFormulaValue : Option FormulaValue → JsValue
  | none => .vNull
  | some (.fString s) => optStr s
  | some (.fNumber n) => optNum n
  | some (.fBoolean b) =>
    match b with
    | some x => .vBool x
    | none => .vNull
  | some (.fDate d) =>
    match d with
    | some dv => .vStr dv.start
    | none => .vNull
  | some .fOther => .vNull

mutual

/-- `extractPropertyValue` (notion-api.js). -/
def extractPropertyValue : Property → JsValue
  | .title rt => .vStr (richTextToPlain rt)
  | .rich_text rt => .vStr (richTextToPlain rt)
  | .number n => optNum n
  | .select s =>
    match s with
    | some o => if o.name = "" then .vNull else .vStr o.name
    | none => .vNull
  | .multi_select opts =>
    match opts with
    | some l => .vArr (l.map (fun o => JsValue.vStr o.name))
    | none => .vArr []
  | .status s =>
    match s with
    | some o => if o.name = "" then .vNull else .vStr o.name
    | none => .vNull
  | .date d =>
    match d with
    | some dv =>
      match dv.end_ with
      | some e =>
        if e = "" then .vStr dv.start
        else .vStr (dv.start ++ " → " ++ e)
      | none => .vStr dv.start
    | none => .vNull
  | .people ps =>
    match ps with
    | some l => .vArr (l.map (fun p => JsValue.vStr (jsOrStr p.name p.id)))
    | none => .vArr []
  | .files fs =>
    match fs with
    | some l => .vArr (l.map (fun f =>
        optStr (jsOrOpt f.name (jsOrOpt f.external_url f.file_url))))
    | none => .vArr []
  | .checkbox b => .vBool b
  | .url u => optStr u
  | .email e => optStr e
  | .phone_number p => optStr p
  | .formula f => extractFormulaValue f
  | .relation ids =>
    match ids with
    | some l => .vArr (l.map JsValue.vStr)
    | none => .vArr []
  | .rollup r => extractRollupValue r
  | .created_time t => .vStr t
  | .created_by u =>
    match u with
    | some uv => optStr (jsOrOpt uv.name uv.id)
    | none => .vNull
  | .last_edited_time t => .vStr t
  | .last_edited_by u =>
    match u with
    | some uv => optStr (jsOrOpt uv.name uv.id)
    | none => .vNull
  | .unique_id u =>
    match u with
    | some uv =>
      match jsOrStr uv.pfx "" with
      | "" => .vNum uv.number
      | p => .vStr (p ++ "-" ++ toString uv.number)
    | none => .vNull
  | .other _ => .vNull

/-- `extractRollupValue` (notion-api.js). -/
def extractRollupValue : Option RollupValue → JsValue
  | none => .vNull
  | some (.rNumber n) => optNum n
  | some (.rDate d) =>
    match d with
    | some dv => .vStr dv.start
    | none => .vNull
  | some (.rArray items) =>
    match items with
    | some l => .vArr (extractPropertyList l)
    | none => .vNull
  | some .rOther => .vNull

/-- `rollup.array?.map(item => extractPropertyValue(item))`. -/
def extractPropertyList : List Property → List JsValue
  | [] => []
  | p :: ps => extractPropertyValue p :: extractPropertyList ps

end

/-- The tag of a `Property`, i.e. the JS `prop.type` string. -/
def Property.typeName : Property → String
  | .title _ => "title"
  | .rich_text _ => "rich_text"
  | .number _ => "number"
  | .select _ => "select"
  | .multi_select _ => "multi_select"
  | .status _ => "status"
  | .date _ => "date"
  | .people _ => "people"
  | .files _ => "files"
  | .checkbox _ => "checkbox"
  | .url _ => "url"
  | .email _ => "email"
  | .phone_number _ => "phone_number"
  | .formula _ => "formula"
  | .relation _ => "relation"
  | .rollup _ => "rollup"
  | .created_time _ => "created_time"
  | .created_by _ => "created_by"
  | .last_edited_time _ => "last_edited_time"
  | .last_edited_by _ => "last_edited_by"
  | .unique_id _ => "unique_id"
  | .other t => t

mutual

/-- JS `String(v)`.  Arrays stringify as their elements joined by `,`, with
`null`/`undefined` elements rendering as the empty string. -/
def jsString : JsValue → String
  | .vNull => "null"
  | .vStr s => s
  | .vNum n => toString n
  | .vBool b => if b then "true" else "false"
  | .vArr elems => String.intercalate "," (jsStringElems elems)

/-- Element stringification inside `String(array)`. -/
def jsStringElems : List JsValue → List String
  | [] => []
  | .vNull :: rest => "" :: jsStringElems rest
  | v :: rest => jsString v :: jsStringElems rest

end

/-- `formatPropertyValue` (toon-converter.js). -/
def formatPropertyValue (value : JsValue) : String :=
  match value with
  | .vArr elems =>
    if elems.length = 0 then "[]"
    else "[" ++ String.intercalate ", "
      (elems.map (fun v => escapeValue (jsString v))) ++ "]"
  | .vBool b => if b then "true" else "false"
  | .vNum n => toString n
  | v => escapeValue (jsString v)

/-- The skip test of `convertProperties`:
`value === null || value === undefined || value === ''`. -/
def isSkippedValue : JsValue → Bool
  | .vNull => true
  | .vStr s => s == ""
  | _ => false

/-- The loop body of `convertProperties` over the property-map entries. -/
def convertPropLines : List (String × Property) → List String
  | [] => []
  | (name, prop) :: rest =>
    if prop.typeName = "title" then convertPropLines rest
    else
      let value := extractPropertyValue prop
      if isSkippedValue value then convertPropLines rest
      else (name ++ ": " ++ formatPropertyValue value) :: convertPropLines rest

/-- `convertProperties` (toon-converter.js). -/
def convertProperties (properties : Option (List (String × Property))) : List String :=
  match properties with
  | none => []
  | some props => convertPropLines props

/-- A Notion page record as read by the converter. -/
structure Page where
  id : String
  created_time : String
  last_edited_time : String
  properties : Option (List (String × Property)) := none

/-- The scan of `extractTitle` over the property-map entries: the first
property of type `title` wins. -/
def findTitle : List (String × Property) → Option String
  | [] => none
  | (_, p) :: rest =>
    match p with
    | .title rt => some (richTextToPlain rt)
    | _ => findTitle rest

/-- `extractTitle` (toon-converter.js). -/
def extractTitle (page : Page) : Option String :=
  match page.properties with
  | none => none
  | some props => findTitle props

/-- The `lines` array built by `convertToToon` before joining. -/
def convertToToonLines (page : Page) (blocks : List Block) : List String :=
  (["meta:",
    "  id: " ++ page.id,
    "  created: " ++ page.created_time,
    "  updated: " ++ page.last_edited_time] ++
   (match extractTitle page with
    | some t => if t = "" then [] else ["  title: " ++ escapeValue t]
    | none => [])) ++
  (let properties := convertProperties page.properties
   if properties.length > 0 then
     "properties:" :: properties.map (fun p => "  " ++ p)
   else []) ++
  (let content := convertBlocks blocks 0
   if content.length > 0 then
     "content:" :: content.map (fun line => "  " ++ line)
   else [])

/-- `convertToToon` (toon-converter.js). -/
def convertToToon (page : Page) (blocks : List Block) : String :=
  String.intercalate "\n" (convertToToonLines page blocks)

/-- State-passing form of `convertToToon`.  The JS function body never
assigns to `page`, `blocks`, or any field reachable from them (it only reads
them while pushing onto its own local `lines` array), so the explicit-state
embedding of the call returns the two input records unchanged next to the
output string. -/
def convertToToonRun (page : Page) (blocks : List Block) :
    String × Page × List Block :=
  (convertToToon page blocks, page, blocks)

/-! ## Helper lemmas -/

/-- The prefix of `s` strictly before its first newline. -/
def firstLineOf (s : String) : String :=
  String.mk (s.data.takeWhile (fun c => c != '\n'))

theorem jsSplitList_ne_nil (c : Char) (l : List Char) : jsSplitList c l ≠ [] := by
  cases l with
  | nil => simp [jsSplitList]
  | cons a rest =>
    simp only [jsSplitList]
    split <;> simp

theorem headD_jsSplitList (c : Char) (l : List Char) :
    (jsSplitList c l).headD [] = l.takeWhile (fun a => a != c) := by
  induction l with
  | nil => rfl
  | cons a rest ih =>
    simp only [jsSplitList, List.takeWhile_cons]
    by_cases h : a = c
    · simp [h]
    · rw [List.headD_eq_head?_getD] at ih
      simp [h, ih]

theorem jsSplit_headD (s : String) (c : Char) :
    (jsSplit s c).headD "" = String.mk (s.data.takeWhile (fun a => a != c)) := by
  unfold jsSplit
  cases hs : jsSplitList c s.data with
  | nil => exact absurd hs (jsSplitList_ne_nil c s.data)
  | cons x xs =>
    have h := headD_jsSplitList c s.data
    rw [hs] at h
    simp only [List.headD_cons] at h
    simp [h]

theorem escapeValue_no_newline (s : String) :
    jsIncludes (escapeValue s) '\n' = false := by
  unfold escapeValue
  by_cases hs : s = ""
  · simp [hs, jsIncludes]
  · by_cases hinc : jsIncludes s '\n'
    · simp only [hs, if_false, hinc, if_true]
      rw [jsSplit_headD]
      unfold jsIncludes
      rw [String.data_append]
      rw [List.contains_eq_any_beq, List.any_append]
      have h1 : (String.mk (s.data.takeWhile (fun a => a != '\n'))).data.any
          (fun x => '\n' == x) = false := by
        rw [List.any_eq_false]
        intro x hx
        have := List.mem_takeWhile_imp hx
        simp at this ⊢
        exact fun he => this he.symm
      rw [h1]
      simp
    · simp [hs, hinc]

/-! ## Claim C2: value escaping -/

/-- Claim C2: `escapeValue` returns its input unchanged (commas and colons
included, no quoting) when it contains no newline, and otherwise returns
exactly the prefix before the first newline with `...` appended. -/
theorem escapeValue_spec_c2 (s : String) :
    (jsIncludes s '\n' = false → escapeValue s = s) ∧
    (jsIncludes s '\n' = true → escapeValue s = firstLineOf s ++ "...") := by
  constructor
  · intro h
    unfold escapeValue
    by_cases hs : s = ""
    · simp [hs]
    · simp [hs, h]
  · intro h
    have hs : s ≠ "" := by
      intro hs
      rw [hs] at h
      simp [jsIncludes] at h
    unfold escapeValue
    rw [if_neg hs, if_pos h, jsSplit_headD]
    rfl

/-- Witness for C2 at concrete inputs: a newline-bearing string is truncated
to its first line plus `...`, and a newline-free string with commas and a
colon passes through unchanged. -/
theorem escapeValue_spec_c2_witness :
    escapeValue "Hello\nWorld" = firstLineOf "Hello\nWorld" ++ "..." ∧
    escapeValue "a, b: c" = "a, b: c" :=
  ⟨(escapeValue_spec_c2 "Hello\nWorld").2 (by decide),
   (escapeValue_spec_c2 "a, b: c").1 (by decide)⟩

/-! ## Claim C9: escaping is idempotent -/

/-- Claim C9: `escapeValue` is idempotent, because its output never contains
a newline: the no-newline branch is the identity and the newline branch
returns a newline-free first-line preview. -/
theorem escapeValue_idem_c9 (s : String) :
    escapeValue (escapeValue s) = escapeValue s := by
  have h := escapeValue_no_newline s
  generalize escapeValue s = t at h ⊢
  unfold escapeValue
  by_cases hts : t = ""
  · simp [hts]
  · simp [hts, h]

/-! ## Claim C1: list-item grouping -/

/-- The per-item line of the compact tabular list form: one indent deeper
than the run, no per-item marker, except that `to_do` items keep their
`[x]`/`[ ]` prefix. -/
def tabularLine (t : String) (indentStr : String) (item : Block) : String :=
  if t = "to_do" then
    indentStr ++ "  " ++ (if item.checked.getD false then "[x]" else "[ ]") ++ " " ++
      escapeValue (richTextToPlain item.rich_text)
  else
    indentStr ++ "  " ++ escapeValue (richTextToPlain item.rich_text)

theorem formatListItems_tabular (t indentStr : String) (items : List Block)
    (hne : items ≠ []) (hall : ∀ b ∈ items, b.type = t)
    (hlen : 2 ≤ items.length) (hnc : ∀ b ∈ items, jsHasChildren b = false) :
    formatListItems items indentStr =
      (indentStr ++ listLabel t ++ "[" ++ toString items.length ++ "]:") ::
        items.map (tabularLine t indentStr) := by
  cases items with
  | nil => exact absurd rfl hne
  | cons first rest =>
    have ht : first.type = t := hall first (List.mem_cons_self _ _)
    have hany : (first :: rest).any jsHasChildren = false := by
      rw [List.any_eq_false]
      intro x hx
      simp [hnc x hx]
    simp only [formatListItems]
    rw [if_pos ⟨hany, hlen⟩, ht]
    rfl

theorem formatListItems_fallback (indentStr : String) (items : List Block)
    (hcond : items.length = 1 ∨ ∃ b ∈ items, jsHasChildren b = true) :
    formatListItems items indentStr =
      (items.map (fun item =>
        (convertBlock item 0).map (fun l => indentStr ++ l))).flatten := by
  cases items with
  | nil => simp [formatListItems]
  | cons first rest =>
    have hcond' : ¬((first :: rest).any jsHasChildren = false ∧
        2 ≤ (first :: rest).length) := by
      rintro ⟨ha, hl⟩
      rcases hcond with h1 | ⟨b, hb, hc⟩
      · rw [h1] at hl
        omega
      · rw [List.any_eq_false] at ha
        exact absurd hc (by simpa using ha b hb)
    simp only [formatListItems]
    rw [if_neg hcond']
    rw [List.attach_map_val
      (first :: rest)
      (fun item => (convertBlock item 0).map (fun l => indentStr ++ l))]

/-- Claim C1: inside a sibling sequence, a maximal run of consecutive
list-item blocks of one kind is consumed in one step; if the run has length
at least 2 and no item has children it is emitted as a single
`items[n]:` / `list[n]:` / `todos[n]:` header followed by one markerless
line per item one indent deeper (`to_do` items keep their `[x]`/`[ ]`
prefix), and otherwise (length 1, or some item with children) every item of
the run goes through the regular per-block dispatch, which preserves its
children. -/
theorem listRun_grouping_c1
    (t : String) (run post : List Block) (ind : Nat)
    (ht : t = "bulleted_list_item" ∨ t = "numbered_list_item" ∨ t = "to_do")
    (hrun : ∀ b ∈ run, b.type = t) (hne : run ≠ [])
    (hpost : ∀ b, post.head? = some b → b.type ≠ t) :
    convertBlocks (run ++ post) ind =
        formatListItems run (indentOf ind) ++ convertBlocks post ind ∧
      ((∀ b ∈ run, jsHasChildren b = false) → 2 ≤ run.length →
        formatListItems run (indentOf ind) =
          (indentOf ind ++ listLabel t ++ "[" ++ toString run.length ++ "]:") ::
            run.map (tabularLine t (indentOf ind))) ∧
      (run.length = 1 ∨ (∃ b ∈ run, jsHasChildren b = true) →
        formatListItems run (indentOf ind) =
          (run.map (fun item =>
            (convertBlock item 0).map (fun l => indentOf ind ++ l))).flatten) := by
  refine ⟨?_, ?_, ?_⟩
  · cases run with
    | nil => exact absurd rfl hne
    | cons b rs =>
      have hb : b.type = t := hrun b (List.mem_cons_self _ _)
      have hli : isListItem b = true := by
        unfold isListItem
        rw [hb]
        rcases ht with rfl | rfl | rfl <;> decide
      have htw : (rs ++ post).takeWhile (fun x => x.type == b.type) = rs := by
        rw [List.takeWhile_append_of_pos]
        · have hpw : post.takeWhile (fun x => x.type == b.type) = [] := by
            cases post with
            | nil => rfl
            | cons q qs =>
              have hq : q.type ≠ t := hpost q rfl
              rw [List.takeWhile_cons, if_neg]
              simp [hb]
              exact hq
          rw [hpw, List.append_nil]
        · intro a ha
          have := hrun a (List.mem_cons_of_mem _ ha)
          simp [this, hb]
      rw [List.cons_append]
      simp only [convertBlocks]
      rw [if_pos hli, htw, List.drop_left]
  · intro hnc hlen
    exact formatListItems_tabular t (indentOf ind) run hne hrun hlen hnc
  · intro hcond
    exact formatListItems_fallback (indentOf ind) run hcond

/-- A concrete childless bulleted list item. -/
def sampleBullet (s : String) : Block :=
  Block.mk { type := "bulleted_list_item", rich_text := some [{ plain_text := some s }] } none

/-- Witness for C1: a run of two childless bulleted items with texts
`First` and `Second` is emitted as `items[2]:` followed by the two bare
indented texts, and a run of one is emitted as `- First`. -/
theorem listRun_grouping_c1_witness :
    convertBlocks [sampleBullet "First", sampleBullet "Second"] 0 =
      ["items[2]:", "  First", "  Second"] ∧
    convertBlocks [sampleBullet "First"] 0 = ["- First"] := by
  have hz : convertBlocks ([] : List Block) 0 = [] := by
    simp only [convertBlocks]
  constructor
  · have h := listRun_grouping_c1 "bulleted_list_item"
        [sampleBullet "First", sampleBullet "Second"] [] 0
        (by simp) (by decide) (by simp) (by intro b hb; simp at hb)
    obtain ⟨h1, h2, _⟩ := h
    rw [List.append_nil] at h1
    rw [h1, hz, h2 (by decide) (by decide)]
    decide
  · have h := listRun_grouping_c1 "bulleted_list_item"
        [sampleBullet "First"] [] 0
        (by simp) (by decide) (by simp) (by intro b hb; simp at hb)
    obtain ⟨h1, _, h3⟩ := h
    rw [List.append_nil] at h1
    rw [h1, hz, h3 (Or.inl (by decide))]
    have hcb : convertBlock (sampleBullet "First") 0 = ["- First"] := by
      simp only [convertBlock]
      decide
    simp only [List.map_cons, List.map_nil]
    rw [hcb]
    decide

/-! ## Claim C10: empty-text list items in the two emission paths -/

/-- The child recursion shared by most block kinds: children lines at one
indent deeper when a children array is attached, nothing otherwise. -/
def childLines (b : Block) (ind : Nat) : List String :=
  match b.children with
  | some cs => convertBlocks cs (ind + 1)
  | none => []

/-- Claim C10: in the compact tabular form every item of the run produces a
line even when its rendered text is empty — that line is just the inner
indent (bulleted/numbered) or the inner indent plus the `[x]`/`[ ]` marker
and its separator space (`to_do`) — whereas the per-item dispatch path
emits no line of its own for a `bulleted_list_item`, `numbered_list_item`,
or `to_do` whose rendered text is empty (only its children's lines
remain). -/
theorem emptyText_listItems_c10 :
    (∀ (t indentStr : String) (items : List Block),
      items ≠ [] → (∀ b ∈ items, b.type = t) →
      2 ≤ items.length → (∀ b ∈ items, jsHasChildren b = false) →
      (formatListItems items indentStr).length = items.length + 1 ∧
      ∀ item ∈ items, richTextToPlain item.rich_text = "" →
        tabularLine t indentStr item ∈ formatListItems items indentStr ∧
        (t ≠ "to_do" → tabularLine t indentStr item = indentStr ++ "  ") ∧
        (t = "to_do" → tabularLine t indentStr item =
          indentStr ++ "  " ++
            (if item.checked.getD false then "[x]" else "[ ]") ++ " ")) ∧
    (∀ (b : Block) (ind : Nat),
      b.type = "bulleted_list_item" ∨ b.type = "numbered_list_item" ∨
        b.type = "to_do" →
      richTextToPlain b.rich_text = "" →
      convertBlock b ind = childLines b ind) := by
  constructor
  · intro t indentStr items hne hall hlen hnc
    have htab := formatListItems_tabular t indentStr items hne hall hlen hnc
    constructor
    · rw [htab]
      simp
    · intro item hitem htext
      refine ⟨?_, ?_, ?_⟩
      · rw [htab]
        exact List.mem_cons_of_mem _ (List.mem_map_of_mem _ hitem)
      · intro hto
        unfold tabularLine
        rw [if_neg hto, htext]
        simp [escapeValue]
      · intro hto
        unfold tabularLine
        rw [if_pos hto, htext]
        simp [escapeValue]
  · intro b ind hty htext
    rcases hty with hb | hb | hb <;>
      (simp only [convertBlock, hb]
       cases hc : b.children with
       | some cs => simp [htext, hc, childLines]
       | none => simp [htext, hc, childLines])

/-- A concrete childless `to_do` item. -/
def sampleTodo (s : String) (c : Bool) : Block :=
  Block.mk { type := "to_do", rich_text := some [{ plain_text := some s }],
             checked := some c } none

/-- Witness for C10: in the tabular run `[to_do "A" checked, to_do "" unchecked]`
the empty-text item still yields the line `  [ ] `, while per-item dispatch
of a childless empty-text `to_do` emits nothing. -/
theorem emptyText_listItems_c10_witness :
    ("  [ ] " : String) ∈
        formatListItems [sampleTodo "A" true, sampleTodo "" false] "" ∧
    convertBlock (sampleTodo "" false) 0 = [] := by
  have h := emptyText_listItems_c10
  constructor
  · have h1 := (h.1 "to_do" "" [sampleTodo "A" true, sampleTodo "" false]
      (by simp) (by decide) (by decide) (by decide)).2
      (sampleTodo "" false) (by simp) (by decide)
    have hline : tabularLine "to_do" "" (sampleTodo "" false) = "  [ ] " := by
      rw [h1.2.2 rfl]
      decide
    rw [← hline]
    exact h1.1
  · have h2 := h.2 (sampleTodo "" false) 0 (Or.inr (Or.inr (by decide)))
      (by decide)
    rw [h2]
    simp [childLines, sampleTodo, Block.children, Block.data]

/-! ## Claim C3: table formatting -/

/-- One emitted data-row line of a table: the row's cells rendered to plain
text, escaped, and comma-joined, one indent deeper. -/
def tableRowLine (indentStr : String) (row : Block) : String :=
  indentStr ++ "  " ++ String.intercalate "," ((cellTexts row).map escapeValue)

/-- Claim C3: a `table` block with no row children emits exactly
`table[0]:`; with the column-header flag set the first row is extracted as
the comma-joined escaped header list and excluded from the data rows,
giving `table[n]{headers}:` when headers exist; without the flag, or when
no headers exist, the header line is `table[n]:`; each data row becomes one
comma-joined escaped line one indent deeper. -/
theorem table_formatting_c3 (b : Block) (bs : List Block) (ind : Nat)
    (indentStr : String) (hb : b.type = "table") :
    convertBlocks (b :: bs) ind =
        formatTable b (indentOf ind) ++ convertBlocks bs ind ∧
      (b.children = none ∨ b.children = some [] →
        formatTable b indentStr = [indentStr ++ "table[0]:"]) ∧
      (∀ r rest, b.children = some (r :: rest) →
        (b.has_column_header.getD false = true →
          (cellTexts r ≠ [] →
            formatTable b indentStr =
              (indentStr ++ "table[" ++ toString rest.length ++ "]\x7b" ++
                  String.intercalate "," ((cellTexts r).map escapeValue) ++ "\x7d:") ::
                rest.map (tableRowLine indentStr)) ∧
          (cellTexts r = [] →
            formatTable b indentStr =
              (indentStr ++ "table[" ++ toString rest.length ++ "]:") ::
                rest.map (tableRowLine indentStr))) ∧
        (b.has_column_header.getD false = false →
          formatTable b indentStr =
            (indentStr ++ "table[" ++ toString (r :: rest).length ++ "]:") ::
              (r :: rest).map (tableRowLine indentStr))) := by
  refine ⟨?_, ?_, ?_⟩
  · have hli : isListItem b = false := by
      unfold isListItem
      rw [hb]
      decide
    simp only [convertBlocks]
    rw [if_neg (by simp [hli]), if_pos hb]
  · intro hch
    rcases hch with hch | hch <;> simp [formatTable, hch]
  · intro r rest hch
    refine ⟨fun hflag => ⟨fun hcells => ?_, fun hcells => ?_⟩, fun hflag => ?_⟩
    · simp [formatTable, hch, hflag, hcells, tableRowLine]
    · simp [formatTable, hch, hflag, hcells, tableRowLine]
    · simp [formatTable, hch, hflag, tableRowLine]

/-- A concrete two-cell table row. -/
def sampleRow (a c : String) : Block :=
  Block.mk { type := "table_row",
             cells := some [[{ plain_text := some a }], [{ plain_text := some c }]] } none

/-- A concrete table with the column-header flag set, one header row and two
data rows. -/
def sampleTable : Block :=
  Block.mk { type := "table", has_column_header := some true }
    (some [sampleRow "Col1" "Col2", sampleRow "a" "b", sampleRow "c" "d"])

/-- Witness for C3: the sample table renders as `table[2]{Col1,Col2}:`
followed by the two comma-joined data lines, and a rowless table renders as
`table[0]:`. -/
theorem table_formatting_c3_witness :
    formatTable sampleTable "" = ["table[2]\x7bCol1,Col2\x7d:", "  a,b", "  c,d"] ∧
    formatTable (Block.mk { type := "table" } none) "" = ["table[0]:"] := by
  constructor
  · have h := (table_formatting_c3 sampleTable [] 0 "" (by decide)).2.2
      (sampleRow "Col1" "Col2") [sampleRow "a" "b", sampleRow "c" "d"]
      (by rfl)
    rw [(h.1 (by decide)).1 (by decide)]
    decide
  · have h := (table_formatting_c3 (Block.mk { type := "table" } none) [] 0 ""
      (by decide)).2.1 (Or.inl (by rfl))
    rw [h]
    decide

/-! ## Claim C4: text-bearing block emission -/

/-- A concrete paragraph block with text `s`. -/
def samplePara (s : String) : Block :=
  Block.mk { type := "paragraph", rich_text := some [{ plain_text := some s }] } none

/-- Counterexample to C4 as stated: a paragraph block with a paragraph child
emits only its own line — the `paragraph` case of `convertBlock` contains no
recursion into children, so the child's line `  p: Child` never appears. -/
theorem paragraph_children_dropped_c4_cex :
    convertBlock
        (Block.mk { type := "paragraph", rich_text := some [{ plain_text := some "Hello" }] }
          (some [samplePara "Child"])) 0 = ["p: Hello"] ∧
    ("  p: Child" : String) ∉
      convertBlock
        (Block.mk { type := "paragraph", rich_text := some [{ plain_text := some "Hello" }] }
          (some [samplePara "Child"])) 0 := by
  have h : convertBlock
      (Block.mk { type := "paragraph", rich_text := some [{ plain_text := some "Hello" }] }
        (some [samplePara "Child"])) 0 = ["p: Hello"] := by
    simp only [convertBlock]
    decide
  rw [h]
  exact ⟨rfl, by decide⟩

/-- Claim C4 (amended): `heading_1/2/3`, `toggle`, and `quote` emit one line
`<marker>: <escaped text>` — omitted entirely when the rendered text is
empty — and then recurse into their children at `depth+1`; `paragraph`
likewise emits `p: <escaped text>` (omitted when empty) but does **not**
recurse: any children attached to a paragraph block are dropped. -/
theorem textBlocks_emission_c4_amended (b : Block) (ind : Nat) :
    (b.type = "paragraph" → convertBlock b ind =
      (if richTextToPlain b.rich_text = "" then []
       else [indentOf ind ++ "p: " ++ escapeValue (richTextToPlain b.rich_text)])) ∧
    (b.type = "heading_1" → convertBlock b ind =
      (if richTextToPlain b.rich_text = "" then []
       else [indentOf ind ++ "h1: " ++ escapeValue (richTextToPlain b.rich_text)]) ++
        childLines b ind) ∧
    (b.type = "heading_2" → convertBlock b ind =
      (if richTextToPlain b.rich_text = "" then []
       else [indentOf ind ++ "h2: " ++ escapeValue (richTextToPlain b.rich_text)]) ++
        childLines b ind) ∧
    (b.type = "heading_3" → convertBlock b ind =
      (if richTextToPlain b.rich_text = "" then []
       else [indentOf ind ++ "h3: " ++ escapeValue (richTextToPlain b.rich_text)]) ++
        childLines b ind) ∧
    (b.type = "toggle" → convertBlock b ind =
      (if richTextToPlain b.rich_text = "" then []
       else [indentOf ind ++ "toggle: " ++ escapeValue (richTextToPlain b.rich_text)]) ++
        childLines b ind) ∧
    (b.type = "quote" → convertBlock b ind =
      (if richTextToPlain b.rich_text = "" then []
       else [indentOf ind ++ "quote: " ++ escapeValue (richTextToPlain b.rich_text)]) ++
        childLines b ind) := by
  refine ⟨?_, ?_, ?_, ?_, ?_, ?_⟩ <;>
    (intro hb
     simp only [convertBlock, hb]
     cases hc : b.children with
     | some cs => simp [childLines, hc]
     | none => simp [childLines, hc])

/-- Witness for C4 (amended): a `heading_1` with one paragraph child emits
the heading line and then the child's paragraph line one indent deeper. -/
theorem textBlocks_emission_c4_amended_witness :
    convertBlock
        (Block.mk { type := "heading_1", rich_text := some [{ plain_text := some "Title" }] }
          (some [samplePara "Para"])) 0 = ["h1: Title", "  p: Para"] := by
  have h := (textBlocks_emission_c4_amended
      (Block.mk { type := "heading_1", rich_text := some [{ plain_text := some "Title" }] }
        (some [samplePara "Para"])) 0).2.1 rfl
  rw [h]
  have hp : convertBlock (samplePara "Para") 1 = ["  p: Para"] := by
    simp only [convertBlock]
    decide
  have hcl : childLines
      (Block.mk { type := "heading_1", rich_text := some [{ plain_text := some "Title" }] }
        (some [samplePara "Para"])) 0 = ["  p: Para"] := by
    unfold childLines
    have hcb : convertBlocks [samplePara "Para"] 1 =
        convertBlock (samplePara "Para") 1 ++ convertBlocks [] 1 := by
      simp only [convertBlocks]
      rw [if_neg (by decide), if_neg (by decide)]
    show convertBlocks [samplePara "Para"] 1 = ["  p: Para"]
    rw [hcb, hp]
    simp only [convertBlocks]
    rfl
  rw [hcl]
  decide

/-! ## Claim C5: emission of the `properties:` section -/

theorem append_ne_of_head_ne (p x q : String) (cp cq : Char) {lp lq : List Char}
    (hp : p.data = cp :: lp) (hq : q.data = cq :: lq) (hne : cp ≠ cq) :
    p ++ x ≠ q := by
  intro h
  have h2 := congrArg String.data h
  rw [String.data_append, hp, hq, List.cons_append] at h2
  injection h2 with h3 _
  exact hne h3

theorem convertPropLines_ne_nil_iff (props : List (String × Property)) :
    convertPropLines props ≠ [] ↔
      ∃ e ∈ props, e.2.typeName ≠ "title" ∧
        isSkippedValue (extractPropertyValue e.2) = false := by
  induction props with
  | nil => simp [convertPropLines]
  | cons e rest ih =>
    obtain ⟨name, prop⟩ := e
    by_cases h1 : prop.typeName = "title"
    · simp [convertPropLines, h1, ih]
    · by_cases h2 : isSkippedValue (extractPropertyValue prop) = true
      · simp [convertPropLines, h1, h2, ih]
      · rw [Bool.not_eq_true] at h2
        simp [convertPropLines, h1, h2]

/-- Counterexample to C5 as stated: a property map whose only non-title
property is a `multi_select` with an empty option list — so its extracted
value is the empty sequence — nevertheless produces a `properties:` section
with the line `Tags: []`, because the skip test of `convertProperties` only
filters `null`, `undefined`, and the empty string, and an empty array is
none of those. -/
theorem properties_section_c5_cex :
    convertToToonLines
        { id := "i", created_time := "c", last_edited_time := "u",
          properties := some [("Tags", Property.multi_select (some []))] } [] =
      ["meta:", "  id: i", "  created: c", "  updated: u",
        "properties:", "  Tags: []"] ∧
    ("properties:" : String) ∈
      convertToToonLines
        { id := "i", created_time := "c", last_edited_time := "u",
          properties := some [("Tags", Property.multi_select (some []))] } [] := by
  have h2 : convertToToonLines
      { id := "i", created_time := "c", last_edited_time := "u",
        properties := some [("Tags", Property.multi_select (some []))] } [] =
      ["meta:", "  id: i", "  created: c", "  updated: u",
        "properties:", "  Tags: []"] := by
    have hz : convertBlocks ([] : List Block) 0 = [] := by
      simp only [convertBlocks]
    simp only [convertToToonLines, hz]
    decide
  exact ⟨h2, by rw [h2]; decide⟩

/-- Claim C5 (amended): the `properties:` section is emitted if and only if
some non-title property's extracted value is neither `null`/`undefined` nor
the empty string.  Empty sequences (such as an empty `multi_select`) count
as present — they render as `[]` — so they do cause the section to
appear. -/
theorem properties_section_iff_c5_amended (page : Page) (blocks : List Block) :
    "properties:" ∈ convertToToonLines page blocks ↔
      ∃ e ∈ page.properties.getD [], e.2.typeName ≠ "title" ∧
        isSkippedValue (extractPropertyValue e.2) = false := by
  have key : convertProperties page.properties ≠ [] ↔
      ∃ e ∈ page.properties.getD [], e.2.typeName ≠ "title" ∧
        isSkippedValue (extractPropertyValue e.2) = false := by
    cases hp : page.properties with
    | none => simp [convertProperties, hp]
    | some props =>
      simpa [convertProperties] using convertPropLines_ne_nil_iff props
  rw [← key]
  constructor
  · intro hmem
    simp only [convertToToonLines] at hmem
    rcases List.mem_append.1 hmem with hAB | hC
    · rcases List.mem_append.1 hAB with hA | hB
      · exfalso
        rcases List.mem_append.1 hA with h4 | hT
        · simp only [List.mem_cons, List.not_mem_nil, or_false] at h4
          rcases h4 with h | h | h | h
          · exact absurd h (by decide)
          · exact append_ne_of_head_ne "  id: " page.id "properties:"
              ' ' 'p' rfl rfl (by decide) h.symm
          · exact append_ne_of_head_ne "  created: " page.created_time
              "properties:" ' ' 'p' rfl rfl (by decide) h.symm
          · exact append_ne_of_head_ne "  updated: " page.last_edited_time
              "properties:" ' ' 'p' rfl rfl (by decide) h.symm
        · cases hti : extractTitle page with
          | none =>
            rw [hti] at hT
            simp at hT
          | some t =>
            rw [hti] at hT
            have hT' : "properties:" ∈
                (if t = "" then ([] : List String)
                 else ["  title: " ++ escapeValue t]) := hT
            by_cases hte : t = ""
            · rw [if_pos hte] at hT'
              simp at hT'
            · rw [if_neg hte] at hT'
              simp only [List.mem_singleton] at hT'
              exact append_ne_of_head_ne "  title: " (escapeValue t)
                "properties:" ' ' 'p' rfl rfl (by decide) hT'.symm
      · by_cases hlen : 0 < (convertProperties page.properties).length
        · exact fun hnil => by
            rw [hnil] at hlen
            simp at hlen
        · rw [if_neg hlen] at hB
          simp at hB
    · exfalso
      by_cases hlen : 0 < (convertBlocks blocks 0).length
      · rw [if_pos hlen] at hC
        rcases List.mem_cons.1 hC with h | h
        · exact absurd h (by decide)
        · obtain ⟨l, _, hl⟩ := List.mem_map.1 h
          exact append_ne_of_head_ne "  " l "properties:"
            ' ' 'p' rfl rfl (by decide) hl
      · rw [if_neg hlen] at hC
        simp at hC
  · intro hprop
    have hlen : 0 < (convertProperties page.properties).length :=
      List.length_pos.2 hprop
    simp only [convertToToonLines]
    refine List.mem_append.2 (Or.inl (List.mem_append.2 (Or.inr ?_)))
    rw [if_pos hlen]
    exact List.mem_cons_self _ _

/-! ## Claim C6: totality, guarded field accesses, unknown-kind fallback -/

/-- The block kinds handled by a dedicated `convertBlock` case, in source
order. -/
def recognizedBlockTypes : List String :=
  ["paragraph", "heading_1", "heading_2", "heading_3", "bulleted_list_item",
   "numbered_list_item", "to_do", "toggle", "code", "quote", "callout",
   "divider", "image", "video", "file", "pdf", "bookmark", "link_preview",
   "embed", "equation", "table_of_contents", "breadcrumb", "column_list",
   "synced_block", "child_page", "child_database", "link_to_page"]

/-- Claim C6: the converter is total over the data model (every function of
this embedding is a total Lean function) and never throws; its field
accesses are guarded with defaults — missing rich-text renders as the empty
string, a video with no file and no external URL renders with an empty URL,
a callout with no icon gets the default emoji — and every block whose kind
has no dedicated case emits exactly the single fallback line `[<kind>]`. -/
theorem converter_guards_c6 :
    richTextToPlain none = "" ∧
    (∀ (b : Block) (ind : Nat), b.type = "video" → b.file_url = none →
      b.external_url = none →
      convertBlock b ind = [indentOf ind ++ "video: "]) ∧
    (∀ (b : Block) (ind : Nat), b.type = "callout" → b.icon_emoji = none →
      richTextToPlain b.rich_text ≠ "" →
      convertBlock b ind =
        (indentOf ind ++ "callout[" ++ "💡" ++ "]: " ++
          escapeValue (richTextToPlain b.rich_text)) :: childLines b ind) ∧
    (∀ (b : Block) (ind : Nat), b.type ∉ recognizedBlockTypes →
      convertBlock b ind = [indentOf ind ++ "[" ++ b.type ++ "]"]) := by
  refine ⟨rfl, ?_, ?_, ?_⟩
  · intro b ind hb hf he
    simp only [convertBlock, hb]
    simp [hf, he, jsOrStr]
  · intro b ind hb hicon htext
    simp only [convertBlock, hb]
    cases hc : b.children with
    | some cs => simp [htext, hicon, hc, childLines, jsOrStr]
    | none => simp [htext, hicon, hc, childLines, jsOrStr]
  · intro b ind hb
    simp only [recognizedBlockTypes, List.mem_cons, List.not_mem_nil,
      or_false, not_or] at hb
    obtain ⟨h1, h2, h3, h4, h5, h6, h7, h8, h9, h10, h11, h12, h13, h14,
      h15, h16, h17, h18, h19, h20, h21, h22, h23, h24, h25, h26, h27⟩ := hb
    simp only [convertBlock]
    rw [if_neg h1, if_neg h2, if_neg h3, if_neg h4, if_neg h5, if_neg h6,
      if_neg h7, if_neg h8, if_neg h9, if_neg h10, if_neg h11, if_neg h12,
      if_neg h13, if_neg h14, if_neg h15, if_neg h16, if_neg h17, if_neg h18,
      if_neg h19, if_neg h20, if_neg h21, if_neg h22, if_neg h23, if_neg h24,
      if_neg h25, if_neg h26, if_neg h27]

/-- A concrete callout block with text `Note` and no icon. -/
def sampleCallout : Block :=
  Block.mk { type := "callout", rich_text := some [{ plain_text := some "Note" }] } none

/-- Witness for C6: the unknown kind `exotic_widget` yields the fallback
line `[exotic_widget]`, a URL-less video block yields `video: `, and a
callout with no icon gets the default emoji. -/
theorem converter_guards_c6_witness :
    convertBlock (Block.mk { type := "exotic_widget" } none) 0 =
      ["[exotic_widget]"] ∧
    convertBlock (Block.mk { type := "video" } none) 0 = ["video: "] ∧
    convertBlock sampleCallout 0 = ["callout[💡]: Note"] := by
  refine ⟨?_, ?_, ?_⟩
  · have h := converter_guards_c6.2.2.2 (Block.mk { type := "exotic_widget" } none)
      0 (by decide)
    rw [h]
    decide
  · have h := converter_guards_c6.2.1 (Block.mk { type := "video" } none) 0
      rfl rfl rfl
    rw [h]
    decide
  · have h := converter_guards_c6.2.2.1 sampleCallout 0 rfl rfl (by decide)
    rw [h]
    have hcl : childLines sampleCallout 0 = [] := rfl
    rw [hcl]
    decide

/-! ## Claim C7: determinism -/

/-- Claim C7: the conversion is deterministic — the converter is embedded as
a pure function of the page and block inputs (the JS function reads only its
arguments and locals, with no hidden state), so two invocations on the same
input yield the identical output string. -/
theorem convertToToon_deterministic_c7 (page : Page) (blocks : List Block) :
    convertToToon page blocks = convertToToon page blocks := rfl

/-! ## Claim C8: the inputs are not mutated -/

/-- Claim C8: `convertToToon` leaves the page record (property map
included) and the block tree unchanged — the explicit-state embedding of the
call, which would thread any assignment to the inputs through its result,
returns both inputs exactly as they were passed in. -/
theorem convertToToon_frame_c8 (page : Page) (blocks : List Block) :
    (convertToToonRun page blocks).2.1 = page ∧
    (convertToToonRun page blocks).2.2 = blocks :=
  ⟨rfl, rfl⟩

end Toon
